import Mathlib

/-!
Verification of the FloodScienceData CloudFront index generator
(`src/generate_indexes.py`).

The script walks an S3 bucket's key hierarchy through the
`list_objects_v2` paginator, renders a static `index.html` page per
folder prefix, builds a flat JSON search index, and uploads the
artifacts back to the bucket.

Shallow embedding conventions:
* The storage provider is abstracted as a paginator function
  `pag : String → List Page`: for each listed prefix it returns the
  pages of that listing (common prefixes and object entries), exactly
  the data the script consumes.
* Python strings are Lean `String`s; Python-specific primitives
  (`strip`, `split`, `rsplit`, `startswith`, `endswith`, `lower`,
  `upper`, lexicographic comparison, `html.escape`, `urllib.quote`,
  `json.dumps`) are modelled character by character below, so that all
  definitions evaluate inside the kernel.
* Python's `sorted` (a stable sort) is modelled by `List.insertionSort`,
  which is also stable; for a total preorder the two agree extensionally.
* The generator `walk_prefixes` is modelled with explicit fuel; its
  termination and its independence from the fuel (for sufficient fuel)
  are proved below.
* `last_modified` values (Python `datetime` objects) are modelled as
  their pre-rendered ISO-8601 UTC strings, `none` for a missing value;
  `iso_utc` then only handles the `None` fallback, since `strftime` and
  timezone arithmetic are outside the scope of the claims.
* The byte counts fed to `human_size` are modelled as exact rationals
  `n / 1024^k` carried as a numerator/denominator pair of naturals;
  Python's float division by 1024 is modelled exactly, and the `.1f`
  format rounds half to even on that exact value.
-/

/-! ## Python string primitives -/

/-- Lexicographic comparison of code-point lists; this is Python's
`str.__le__` restricted to the corresponding code points. -/
def lexLe (xs ys : List Char) : Bool :=
  match xs, ys with
  | [], _ => true
  | _ :: _, [] => false
  | x :: xrest, y :: yrest =>
      if x.toNat < y.toNat then true
      else if y.toNat < x.toNat then false
      else lexLe xrest yrest

/-- Python string ordering `a <= b`, as a proposition. -/
def pyLe (a b : String) : Prop := lexLe a.toList b.toList = true

instance : DecidableRel pyLe := fun a b => by unfold pyLe; infer_instance

theorem lexLe_total : ∀ as bs : List Char, lexLe as bs = true ∨ lexLe bs as = true := by
  intro as
  induction as with
  | nil => intro bs; left; rfl
  | cons a as ih =>
      intro bs
      cases bs with
      | nil => right; rfl
      | cons b bs =>
          simp only [lexLe]
          rcases Nat.lt_trichotomy a.toNat b.toNat with h | h | h
          · left; simp [h]
          · have h1 : ¬ a.toNat < b.toNat := by omega
            have h2 : ¬ b.toNat < a.toNat := by omega
            rcases ih bs with h3 | h3
            · left; simp [h1, h2, h3]
            · right; simp [h1, h2, h3]
          · right; simp [h]

theorem lexLe_trans : ∀ as bs cs : List Char,
    lexLe as bs = true → lexLe bs cs = true → lexLe as cs = true := by
  intro as
  induction as with
  | nil => intro bs cs _ _; rfl
  | cons a as ih =>
      intro bs cs hab hbc
      cases bs with
      | nil => exact absurd hab (by simp [lexLe])
      | cons b bs =>
          cases cs with
          | nil => exact absurd hbc (by simp [lexLe])
          | cons c cs =>
              simp only [lexLe] at hab hbc ⊢
              by_cases hab1 : a.toNat < b.toNat
              · by_cases hbc1 : b.toNat < c.toNat
                · simp [show a.toNat < c.toNat by omega]
                · by_cases hbc2 : c.toNat < b.toNat
                  · rw [if_neg hbc1, if_pos hbc2] at hbc
                    exact absurd hbc (by simp)
                  · simp [show a.toNat < c.toNat by omega]
              · by_cases hab2 : b.toNat < a.toNat
                · rw [if_neg hab1, if_pos hab2] at hab
                  exact absurd hab (by simp)
                · rw [if_neg hab1, if_neg hab2] at hab
                  by_cases hbc1 : b.toNat < c.toNat
                  · simp [show a.toNat < c.toNat by omega]
                  · by_cases hbc2 : c.toNat < b.toNat
                    · rw [if_neg hbc1, if_pos hbc2] at hbc
                      exact absurd hbc (by simp)
                    · rw [if_neg hbc1, if_neg hbc2] at hbc
                      rw [if_neg (show ¬ a.toNat < c.toNat by omega),
                          if_neg (show ¬ c.toNat < a.toNat by omega)]
                      exact ih bs cs hab hbc

instance : IsTotal String pyLe := ⟨fun a b => lexLe_total a.toList b.toList⟩

instance : IsTrans String pyLe := ⟨fun a b c => lexLe_trans a.toList b.toList c.toList⟩

/-- Python `s.startswith(t)`. -/
def pyStartswith (s t : String) : Bool := t.toList.isPrefixOf s.toList

/-- Python `s.endswith(t)`. -/
def pyEndswith (s t : String) : Bool := t.toList.isSuffixOf s.toList

/-- Python `s.strip('/')`: remove all leading and trailing `'/'` characters. -/
def stripSlashes (s : String) : String :=
  String.mk (((s.toList.dropWhile (· == '/')).reverse.dropWhile (· == '/')).reverse)

/-- Python `s.rstrip('/')`: remove all trailing `'/'` characters. -/
def rstripSlashes (s : String) : String :=
  String.mk ((s.toList.reverse.dropWhile (· == '/')).reverse)

/-- Worker for `pySplit`. -/
def pySplitAux (sep : Char) : List Char → List Char → List String
  | acc, [] => [String.mk acc.reverse]
  | acc, c :: cs =>
      if c == sep then String.mk acc.reverse :: pySplitAux sep [] cs
      else pySplitAux sep (c :: acc) cs

/-- Python `s.split(sep)` for a single-character separator (no maxsplit):
splits at every occurrence of `sep`, keeping empty fields. -/
def pySplit (sep : Char) (s : String) : List String := pySplitAux sep [] s.toList

/-- Python `s.rsplit('.', 1)[1]`: the part of `s` after the last `'.'`
(meaningful only when `s` contains a `'.'`). -/
def afterLastDot (s : String) : String :=
  String.mk ((s.toList.reverse.takeWhile (· ≠ '.')).reverse)

/-- Python `str.lower` on an ASCII character (the script only ever
lowercases ASCII file names and extensions). -/
def asciiLower (c : Char) : Char :=
  if 'A' ≤ c ∧ c ≤ 'Z' then Char.ofNat (c.toNat + 32) else c

/-- Python `str.upper` on an ASCII character. -/
def asciiUpper (c : Char) : Char :=
  if 'a' ≤ c ∧ c ≤ 'z' then Char.ofNat (c.toNat - 32) else c

/-- Python `s.lower()` (ASCII model). -/
def pyLower (s : String) : String := String.mk (s.toList.map asciiLower)

/-- Python `s.upper()` (ASCII model). -/
def pyUpper (s : String) : String := String.mk (s.toList.map asciiUpper)

/-- Python `''.join(l)`: concatenation of a list of strings. -/
def concatAll : List String → String
  | [] => ""
  | s :: rest => s ++ concatAll rest

/-- Python `sep.join(l)`. -/
def joinSep (sep : String) : List String → String
  | [] => ""
  | [s] => s
  | s :: rest => s ++ sep ++ joinSep sep rest

/-- Escape of one character as performed by Python `html.escape`
(with its default `quote=True`). -/
def htmlEscapeChar (c : Char) : String :=
  if c = '&' then "&amp;"
  else if c = '<' then "&lt;"
  else if c = '>' then "&gt;"
  else if c.toNat = 34 then "&quot;"
  else if c.toNat = 39 then "&#x27;"
  else String.mk [c]

/-- Python `html.escape(s)`. -/
def htmlEscape (s : String) : String := concatAll (s.toList.map htmlEscapeChar)

/-- Uppercase hexadecimal digit. -/
def hexDigitUpper (k : ℕ) : Char :=
  if k < 10 then Char.ofNat (48 + k) else Char.ofNat (55 + k)

/-- Lowercase hexadecimal digit. -/
def hexDigitLower (k : ℕ) : Char :=
  if k < 10 then Char.ofNat (48 + k) else Char.ofNat (87 + k)

/-- UTF-8 encoding of one code point, as a list of byte values. -/
def utf8Bytes (c : Char) : List ℕ :=
  let n := c.toNat
  if n < 128 then [n]
  else if n < 2048 then [192 + n / 64, 128 + n % 64]
  else if n < 65536 then [224 + n / 4096, 128 + (n / 64) % 64, 128 + n % 64]
  else [240 + n / 262144, 128 + (n / 4096) % 64, 128 + (n / 64) % 64, 128 + n % 64]

/-- Percent-encoding of one byte, `%XX` with uppercase hex digits. -/
def pctByte (b : ℕ) : String := "%" ++ String.mk [hexDigitUpper (b / 16), hexDigitUpper (b % 16)]

/-- Characters kept verbatim by `urllib.parse.quote(s, safe='/')`:
ASCII alphanumerics, `_ . - ~`, and the safe character `/`. -/
def quoteKeep (c : Char) : Bool :=
  c.isAlphanum || c == '_' || c == '.' || c == '-' || c == '~' || c == '/'

/-- Python `urllib.parse.quote(s, safe='/')`. -/
def pyQuote (s : String) : String :=
  concatAll (s.toList.map fun c =>
    if quoteKeep c then String.mk [c] else concatAll ((utf8Bytes c).map pctByte))

/-- Four lowercase hex digits. -/
def hex4 (n : ℕ) : String :=
  String.mk [hexDigitLower (n / 4096), hexDigitLower ((n / 256) % 16),
             hexDigitLower ((n / 16) % 16), hexDigitLower (n % 16)]

/-- Escape of one character inside a `json.dumps` string literal.
`ascii` selects `ensure_ascii=True` (the default, used for the strings
interpolated into the page script) versus `ensure_ascii=False` (used
for the search index document). -/
def jsonEscapeChar (ascii : Bool) (c : Char) : String :=
  if c.toNat = 34 then "\\\""
  else if c = '\\' then "\\\\"
  else if c = '\n' then "\\n"
  else if c = '\t' then "\\t"
  else if c = '\r' then "\\r"
  else if c.toNat = 8 then "\\b"
  else if c.toNat = 12 then "\\f"
  else if c.toNat < 32 then "\\u00" ++ String.mk [hexDigitLower (c.toNat / 16), hexDigitLower (c.toNat % 16)]
  else if c.toNat < 128 then String.mk [c]
  else if ascii then
    if c.toNat < 65536 then "\\u" ++ hex4 c.toNat
    else "\\u" ++ hex4 (55296 + (c.toNat - 65536) / 1024) ++ "\\u" ++ hex4 (56320 + (c.toNat - 65536) % 1024)
  else String.mk [c]

/-- Python `json.dumps(s)` on a string, with `ensure_ascii=True`. -/
def pyJsonDumps (s : String) : String :=
  "\"" ++ concatAll (s.toList.map (jsonEscapeChar true)) ++ "\""

/-- Python `json.dumps(s)` on a string, with `ensure_ascii=False`. -/
def pyJsonDumpsRaw (s : String) : String :=
  "\"" ++ concatAll (s.toList.map (jsonEscapeChar false)) ++ "\""

/-! ## Data model: pages of an S3 listing -/

/-- One object entry of a `list_objects_v2` page (`Contents`): the
fields the script reads. -/
structure S3Obj where
  key : String
  size : Option ℕ
  last_modified : Option String
deriving DecidableEq

/-- One page of a `list_objects_v2` paginator, with delimiter `'/'`:
the `Prefix` fields of its `CommonPrefixes` and its `Contents`. -/
structure Page where
  common_prefixes : List String
  contents : List S3Obj
deriving DecidableEq

/-- One dict of the `files` list built by `list_folder`. -/
structure FileEntry where
  key : String
  size : Option ℕ
  last_modified : Option String
deriving DecidableEq

/-- Ordering of file entries by their `key`, as used by
`sorted(files, key=lambda x: x['key'])`. -/
def keyLe (f g : FileEntry) : Prop := pyLe f.key g.key

instance : DecidableRel keyLe := fun f g => by unfold keyLe; infer_instance

instance : IsTotal FileEntry keyLe := ⟨fun f g => lexLe_total f.key.toList g.key.toList⟩

instance : IsTrans FileEntry keyLe := ⟨fun f g h => lexLe_trans f.key.toList g.key.toList h.key.toList⟩

/-- Code of `list_folder` (src/generate_indexes.py, lines 33-42): gather
common prefixes and object entries over all pages, drop keys ending in
`'/'` or `'index.html'`, and return both lists sorted (Python's stable
`sorted` is modelled by the stable `insertionSort`). -/
def list_folder (pages : List Page) : List String × List FileEntry :=
  let subs := pages.flatMap fun page => page.common_prefixes
  let files := pages.flatMap fun page =>
    (page.contents.filter fun o =>
      !(pyEndswith o.key "/") && !(pyEndswith o.key "index.html")).map
      fun o => { key := o.key, size := o.size, last_modified := o.last_modified }
  (List.insertionSort pyLe subs, List.insertionSort keyLe files)

/-! ## Traversal: `walk_prefixes` -/

/-- Subfolder prefixes returned by `list_folder` for one prefix; this is
the `subs` component consumed by `walk_prefixes`. -/
def subs_of (pag : String → List Page) (p : String) : List String :=
  (list_folder (pag p)).1

/-- Code of `walk_prefixes` (src/generate_indexes.py, lines 44-51),
with explicit fuel bounding the number of loop iterations. The Python
work list pops from its end (`stack.pop()`) and appends the listed
subfolders (`stack.extend(subs)`); the generator's yields are collected
into the first component, and the final seen-set is the second. -/
def walkAux (pag : String → List Page) : ℕ → List String → Finset String → List String × Finset String
  | 0, _, seen => ([], seen)
  | fuel + 1, stack, seen =>
      match stack.getLast? with
      | none => ([], seen)
      | some pref =>
          if pref ∈ seen then walkAux pag fuel stack.dropLast seen
          else
            ((pref :: (walkAux pag fuel (stack.dropLast ++ subs_of pag pref) (insert pref seen)).1),
             (walkAux pag fuel (stack.dropLast ++ subs_of pag pref) (insert pref seen)).2)

/-- Sequence of prefixes yielded by `walk_prefixes(s3, bucket, start)`. -/
def walk_prefixes (pag : String → List Page) (start : String) (fuel : ℕ) : List String :=
  (walkAux pag fuel [start] ∅).1

/-- Reachability of a prefix from `start` via common-prefix children,
the transitive closure of one `list_folder` subfolder step. -/
inductive Reaches (pag : String → List Page) (start : String) : String → Prop
  | refl : Reaches pag start start
  | step {p q : String} : Reaches pag start p → q ∈ subs_of pag p → Reaches pag start q

/-- Loop-iteration budget charged to a prefix that is not yet seen. -/
def prefWeight (pag : String → List Page) (p : String) : ℕ := (subs_of pag p).length + 1

/-- Iterations left to run from a traversal state: one per stacked
entry, plus the budget of every not-yet-seen prefix of the universe. -/
def stackBound (pag : String → List Page) (U : Finset String) (stack : List String) (seen : Finset String) : ℕ :=
  stack.length + ∑ p ∈ U \ seen, prefWeight pag p

/-- Fuel sufficient for a whole run started at one prefix. -/
def walkFuel (pag : String → List Page) (U : Finset String) : ℕ :=
  1 + ∑ p ∈ U, prefWeight pag p

theorem walkAux_nil (pag : String → List Page) (fuel : ℕ) (seen : Finset String) :
    walkAux pag fuel [] seen = ([], seen) := by
  cases fuel <;> rfl

theorem getLast?_eq_some_split {α : Type} {l : List α} {a : α} (h : l.getLast? = some a) :
    l = l.dropLast ++ [a] ∧ a ∈ l := by
  have hne : l ≠ [] := by
    intro he
    rw [he] at h
    exact absurd h (by simp)
  have hg := List.getLast?_eq_getLast l hne
  rw [hg] at h
  have ha : a = l.getLast hne := by
    exact (Option.some.injEq _ _ ▸ h).symm
  constructor
  · rw [ha]
    exact (List.dropLast_append_getLast hne).symm
  · rw [ha]
    exact List.getLast_mem hne

theorem walkAux_spec (pag : String → List Page) (U : Finset String)
    (hU : ∀ p ∈ U, ∀ q ∈ subs_of pag p, q ∈ U) :
    ∀ fuel : ℕ, ∀ stack : List String, ∀ seen : Finset String,
      (∀ q ∈ stack, q ∈ U) → seen ⊆ U →
      stackBound pag U stack seen ≤ fuel →
      ((walkAux pag fuel stack seen).2 = seen ∪ (walkAux pag fuel stack seen).1.toFinset
       ∧ (∀ q ∈ stack, q ∈ (walkAux pag fuel stack seen).2)
       ∧ (∀ p ∈ (walkAux pag fuel stack seen).1, ∀ q ∈ subs_of pag p,
            q ∈ (walkAux pag fuel stack seen).2)) := by
  intro fuel
  induction fuel with
  | zero =>
      intro stack seen hstack hseen hfuel
      have hnil : stack = [] := by
        have hb : stack.length = 0 := by
          unfold stackBound at hfuel
          omega
        exact List.length_eq_zero.mp hb
      subst hnil
      refine ⟨by simp [walkAux], by simp, by simp [walkAux]⟩
  | succ fuel ih =>
      intro stack seen hstack hseen hfuel
      cases hlast : stack.getLast? with
      | none =>
          have hnil : stack = [] := List.getLast?_eq_none_iff.mp hlast
          subst hnil
          refine ⟨by simp [walkAux], by simp, by simp [walkAux]⟩
      | some pref =>
          obtain ⟨hsplit, hmem⟩ := getLast?_eq_some_split hlast
          have hprefU : pref ∈ U := hstack pref hmem
          have hlen : stack.length = stack.dropLast.length + 1 := by
            conv_lhs => rw [hsplit]
            simp
          by_cases hseenp : pref ∈ seen
          · have heq : walkAux pag (fuel + 1) stack seen = walkAux pag fuel stack.dropLast seen := by
              simp only [walkAux, hlast]
              rw [if_pos hseenp]
            have hstack' : ∀ q ∈ stack.dropLast, q ∈ U :=
              fun q hq => hstack q (List.dropLast_subset stack hq)
            have hbound : stackBound pag U stack.dropLast seen ≤ fuel := by
              unfold stackBound at hfuel ⊢
              omega
            obtain ⟨ihc, iha, ihd⟩ := ih stack.dropLast seen hstack' hseen hbound
            refine ⟨by rw [heq]; exact ihc, ?_, by rw [heq]; exact ihd⟩
            intro q hq
            rw [heq]
            rw [hsplit] at hq
            rcases List.mem_append.mp hq with hq' | hq'
            · exact iha q hq'
            · have : q = pref := by simpa using hq'
              subst this
              rw [ihc]
              exact Finset.mem_union_left _ hseenp
          · have heq : walkAux pag (fuel + 1) stack seen =
                ((pref :: (walkAux pag fuel (stack.dropLast ++ subs_of pag pref) (insert pref seen)).1),
                 (walkAux pag fuel (stack.dropLast ++ subs_of pag pref) (insert pref seen)).2) := by
              simp only [walkAux, hlast]
              rw [if_neg hseenp]
            have hstack'' : ∀ q ∈ stack.dropLast ++ subs_of pag pref, q ∈ U := by
              intro q hq
              rcases List.mem_append.mp hq with hq' | hq'
              · exact hstack q (List.dropLast_subset stack hq')
              · exact hU pref hprefU q hq'
            have hseen' : insert pref seen ⊆ U := Finset.insert_subset_iff.mpr ⟨hprefU, hseen⟩
            have hbound : stackBound pag U (stack.dropLast ++ subs_of pag pref) (insert pref seen) ≤ fuel := by
              have hsum : ∑ p ∈ U \ seen, prefWeight pag p
                  = prefWeight pag pref + ∑ p ∈ (U \ seen).erase pref, prefWeight pag p :=
                (Finset.add_sum_erase _ _ (Finset.mem_sdiff.mpr ⟨hprefU, hseenp⟩)).symm
              have hins : U \ insert pref seen = (U \ seen).erase pref := Finset.sdiff_insert U seen pref
              have hw : prefWeight pag pref = (subs_of pag pref).length + 1 := rfl
              unfold stackBound at hfuel ⊢
              rw [hins, List.length_append]
              omega
            obtain ⟨ihc, iha, ihd⟩ := ih (stack.dropLast ++ subs_of pag pref) (insert pref seen) hstack'' hseen' hbound
            refine ⟨?_, ?_, ?_⟩
            · rw [heq]
              simp only
              rw [ihc]
              ext x
              simp only [List.toFinset_cons, Finset.mem_union, Finset.mem_insert, List.mem_toFinset]
              tauto
            · intro q hq
              rw [heq]
              simp only
              rw [hsplit] at hq
              rcases List.mem_append.mp hq with hq' | hq'
              · exact iha q (List.mem_append_left _ hq')
              · have : q = pref := by simpa using hq'
                subst this
                rw [ihc]
                exact Finset.mem_union_left _ (Finset.mem_insert_self _ _)
            · intro p hp q hqsubs
              rw [heq]
              simp only
              rw [heq] at hp
              simp only [List.mem_cons] at hp
              rcases hp with hp | hp
              · subst hp
                exact iha q (List.mem_append_right _ hqsubs)
              · exact ihd p hp q hqsubs

theorem walkAux_nodup (pag : String → List Page) :
    ∀ fuel : ℕ, ∀ stack : List String, ∀ seen : Finset String,
      (walkAux pag fuel stack seen).1.Nodup
      ∧ (∀ p ∈ (walkAux pag fuel stack seen).1, p ∉ seen) := by
  intro fuel
  induction fuel with
  | zero => intro stack seen; exact ⟨by simp [walkAux], by simp [walkAux]⟩
  | succ fuel ih =>
      intro stack seen
      cases hlast : stack.getLast? with
      | none =>
          simp only [walkAux, hlast]
          exact ⟨by simp, by simp⟩
      | some pref =>
          by_cases hseenp : pref ∈ seen
          · have heq : walkAux pag (fuel + 1) stack seen = walkAux pag fuel stack.dropLast seen := by
              simp only [walkAux, hlast]
              rw [if_pos hseenp]
            rw [heq]
            exact ih stack.dropLast seen
          · have heq : walkAux pag (fuel + 1) stack seen =
                ((pref :: (walkAux pag fuel (stack.dropLast ++ subs_of pag pref) (insert pref seen)).1),
                 (walkAux pag fuel (stack.dropLast ++ subs_of pag pref) (insert pref seen)).2) := by
              simp only [walkAux, hlast]
              rw [if_neg hseenp]
            obtain ⟨ihn, ihs⟩ := ih (stack.dropLast ++ subs_of pag pref) (insert pref seen)
            rw [heq]
            constructor
            · simp only [List.nodup_cons]
              refine ⟨?_, ihn⟩
              intro hmem
              exact (ihs pref hmem) (Finset.mem_insert_self _ _)
            · intro p hp
              simp only [List.mem_cons] at hp
              rcases hp with hp | hp
              · subst hp; exact hseenp
              · intro hin
                exact (ihs p hp) (Finset.mem_insert_of_mem hin)

theorem walkAux_sound (pag : String → List Page) (start : String) :
    ∀ fuel : ℕ, ∀ stack : List String, ∀ seen : Finset String,
      (∀ q ∈ stack, Reaches pag start q) →
      ∀ p ∈ (walkAux pag fuel stack seen).1, Reaches pag start p := by
  intro fuel
  induction fuel with
  | zero => intro stack seen _ p hp; simp [walkAux] at hp
  | succ fuel ih =>
      intro stack seen hstack p hp
      cases hlast : stack.getLast? with
      | none => simp only [walkAux, hlast] at hp; simp at hp
      | some pref =>
          obtain ⟨hsplit, hmem⟩ := getLast?_eq_some_split hlast
          have hreach : Reaches pag start pref := hstack pref hmem
          have hstack' : ∀ q ∈ stack.dropLast, Reaches pag start q :=
            fun q hq => hstack q (List.dropLast_subset stack hq)
          by_cases hseenp : pref ∈ seen
          · rw [show walkAux pag (fuel + 1) stack seen = walkAux pag fuel stack.dropLast seen by
                simp only [walkAux, hlast]; rw [if_pos hseenp]] at hp
            exact ih stack.dropLast seen hstack' p hp
          · rw [show walkAux pag (fuel + 1) stack seen =
                ((pref :: (walkAux pag fuel (stack.dropLast ++ subs_of pag pref) (insert pref seen)).1),
                 (walkAux pag fuel (stack.dropLast ++ subs_of pag pref) (insert pref seen)).2) by
                simp only [walkAux, hlast]; rw [if_neg hseenp]] at hp
            simp only [List.mem_cons] at hp
            rcases hp with hp | hp
            · subst hp; exact hreach
            · refine ih (stack.dropLast ++ subs_of pag pref) (insert pref seen) ?_ p hp
              intro q hq
              rcases List.mem_append.mp hq with hq' | hq'
              · exact hstack' q hq'
              · exact Reaches.step hreach hq'

theorem walkAux_stable (pag : String → List Page) (U : Finset String)
    (hU : ∀ p ∈ U, ∀ q ∈ subs_of pag p, q ∈ U) :
    ∀ fuel₁ fuel₂ : ℕ, ∀ stack : List String, ∀ seen : Finset String,
      (∀ q ∈ stack, q ∈ U) → seen ⊆ U →
      stackBound pag U stack seen ≤ fuel₁ → stackBound pag U stack seen ≤ fuel₂ →
      walkAux pag fuel₁ stack seen = walkAux pag fuel₂ stack seen := by
  intro fuel₁
  induction fuel₁ with
  | zero =>
      intro fuel₂ stack seen hstack hseen h1 h2
      have hnil : stack = [] := by
        have hb : stack.length = 0 := by
          unfold stackBound at h1
          omega
        exact List.length_eq_zero.mp hb
      subst hnil
      rw [walkAux_nil, walkAux_nil]
  | succ fuel ih =>
      intro fuel₂ stack seen hstack hseen h1 h2
      cases hlast : stack.getLast? with
      | none =>
          have hnil : stack = [] := List.getLast?_eq_none_iff.mp hlast
          subst hnil
          rw [walkAux_nil, walkAux_nil]
      | some pref =>
          obtain ⟨hsplit, hmem⟩ := getLast?_eq_some_split hlast
          have hprefU : pref ∈ U := hstack pref hmem
          have hlen : stack.length = stack.dropLast.length + 1 := by
            conv_lhs => rw [hsplit]
            simp
          have hpos : 1 ≤ stackBound pag U stack seen := by
            unfold stackBound
            omega
          cases fuel₂ with
          | zero => omega
          | succ fuel₂ =>
              by_cases hseenp : pref ∈ seen
              · have e1 : walkAux pag (fuel + 1) stack seen = walkAux pag fuel stack.dropLast seen := by
                  simp only [walkAux, hlast]
                  rw [if_pos hseenp]
                have e2 : walkAux pag (fuel₂ + 1) stack seen = walkAux pag fuel₂ stack.dropLast seen := by
                  simp only [walkAux, hlast]
                  rw [if_pos hseenp]
                have hstack' : ∀ q ∈ stack.dropLast, q ∈ U :=
                  fun q hq => hstack q (List.dropLast_subset stack hq)
                have hb1 : stackBound pag U stack.dropLast seen ≤ fuel := by
                  unfold stackBound at h1 ⊢
                  omega
                have hb2 : stackBound pag U stack.dropLast seen ≤ fuel₂ := by
                  unfold stackBound at h2 ⊢
                  omega
                rw [e1, e2, ih fuel₂ stack.dropLast seen hstack' hseen hb1 hb2]
              · have e1 : walkAux pag (fuel + 1) stack seen =
                    ((pref :: (walkAux pag fuel (stack.dropLast ++ subs_of pag pref) (insert pref seen)).1),
                     (walkAux pag fuel (stack.dropLast ++ subs_of pag pref) (insert pref seen)).2) := by
                  simp only [walkAux, hlast]
                  rw [if_neg hseenp]
                have e2 : walkAux pag (fuel₂ + 1) stack seen =
                    ((pref :: (walkAux pag fuel₂ (stack.dropLast ++ subs_of pag pref) (insert pref seen)).1),
                     (walkAux pag fuel₂ (stack.dropLast ++ subs_of pag pref) (insert pref seen)).2) := by
                  simp only [walkAux, hlast]
                  rw [if_neg hseenp]
                have hstack'' : ∀ q ∈ stack.dropLast ++ subs_of pag pref, q ∈ U := by
                  intro q hq
                  rcases List.mem_append.mp hq with hq' | hq'
                  · exact hstack q (List.dropLast_subset stack hq')
                  · exact hU pref hprefU q hq'
                have hseen' : insert pref seen ⊆ U := Finset.insert_subset_iff.mpr ⟨hprefU, hseen⟩
                have hsum : ∑ p ∈ U \ seen, prefWeight pag p
                    = prefWeight pag pref + ∑ p ∈ (U \ seen).erase pref, prefWeight pag p :=
                  (Finset.add_sum_erase _ _ (Finset.mem_sdiff.mpr ⟨hprefU, hseenp⟩)).symm
                have hins : U \ insert pref seen = (U \ seen).erase pref := Finset.sdiff_insert U seen pref
                have hw : prefWeight pag pref = (subs_of pag pref).length + 1 := rfl
                have hb1 : stackBound pag U (stack.dropLast ++ subs_of pag pref) (insert pref seen) ≤ fuel := by
                  unfold stackBound at h1 ⊢
                  rw [hins, List.length_append]
                  omega
                have hb2 : stackBound pag U (stack.dropLast ++ subs_of pag pref) (insert pref seen) ≤ fuel₂ := by
                  unfold stackBound at h2 ⊢
                  rw [hins, List.length_append]
                  omega
                rw [e1, e2, ih fuel₂ (stack.dropLast ++ subs_of pag pref) (insert pref seen) hstack'' hseen' hb1 hb2]

/-- C1: `walk_prefixes` yields exactly the set of prefixes reachable
from the start via common-prefix children, the start included, and
yields each such prefix exactly once (the output has no duplicates).
The bucket listing is a paginator function `pag`; `U` is any finite
universe of prefixes containing the start and closed under the
subfolder step, and the fuel must cover the loop-iteration bound
`walkFuel pag U`. -/
theorem walk_prefixes_exactly_reachable (pag : String → List Page) (start : String)
    (U : Finset String) (fuel : ℕ)
    (hU : ∀ p ∈ U, ∀ q ∈ subs_of pag p, q ∈ U) (hstart : start ∈ U)
    (hfuel : walkFuel pag U ≤ fuel) :
    (∀ p, p ∈ walk_prefixes pag start fuel ↔ Reaches pag start p)
    ∧ (walk_prefixes pag start fuel).Nodup := by
  have hstack : ∀ q ∈ [start], q ∈ U := by
    intro q hq
    have hq' : q = start := by simpa using hq
    subst hq'
    exact hstart
  have hbound : stackBound pag U [start] ∅ ≤ fuel := by
    unfold stackBound
    unfold walkFuel at hfuel
    simp only [Finset.sdiff_empty, List.length_singleton]
    omega
  obtain ⟨hc, ha, hd⟩ := walkAux_spec pag U hU fuel [start] ∅ hstack (Finset.empty_subset U) hbound
  have hS : (walkAux pag fuel [start] ∅).2 = (walkAux pag fuel [start] ∅).1.toFinset := by
    rw [hc]
    exact Finset.empty_union _
  unfold walk_prefixes
  constructor
  · intro p
    constructor
    · intro hp
      refine walkAux_sound pag start fuel [start] ∅ ?_ p hp
      intro q hq
      have hq' : q = start := by simpa using hq
      subst hq'
      exact Reaches.refl
    · intro hre
      have hmem : p ∈ (walkAux pag fuel [start] ∅).2 := by
        induction hre with
        | refl => exact ha start (by simp)
        | step hpre hsub ihp =>
            rw [hS] at ihp
            exact hd _ (List.mem_toFinset.mp ihp) _ hsub
      rw [hS] at hmem
      exact List.mem_toFinset.mp hmem
  · exact (walkAux_nodup pag fuel [start] ∅).1

/-- C10: under a finite universe of prefixes closed under the subfolder
step (the consequence of a finite key set) in which every common prefix
strictly extends the prefix it was listed under, the traversal
terminates: its output is fuel-independent past an explicit bound, so
the Python `while stack` loop ends. -/
theorem walk_prefixes_terminates (pag : String → List Page) (start : String)
    (U : Finset String)
    (hU : ∀ p ∈ U, ∀ q ∈ subs_of pag p, q ∈ U) (hstart : start ∈ U)
    (_hext : ∀ p ∈ U, ∀ q ∈ subs_of pag p, p.length < q.length ∧ pyStartswith q p = true) :
    ∃ N : ℕ, ∀ fuel : ℕ, N ≤ fuel → walk_prefixes pag start fuel = walk_prefixes pag start N := by
  refine ⟨walkFuel pag U, ?_⟩
  intro fuel hfuel
  have hstack : ∀ q ∈ [start], q ∈ U := by
    intro q hq
    have hq' : q = start := by simpa using hq
    subst hq'
    exact hstart
  have hbound : stackBound pag U [start] ∅ ≤ walkFuel pag U := by
    unfold stackBound walkFuel
    simp only [Finset.sdiff_empty, List.length_singleton]
    omega
  unfold walk_prefixes
  rw [walkAux_stable pag U hU fuel (walkFuel pag U) [start] ∅ hstack (Finset.empty_subset U)
    (le_trans hbound hfuel) hbound]

/-- Concrete four-folder bucket used to witness the traversal theorems:
the root lists subfolders `a/` and `b/`, and `a/` lists `a/c/` next to
one CSV object. -/
def pagA : String → List Page :=
  fun p =>
    if p = "" then [{ common_prefixes := ["a/", "b/"], contents := [] }]
    else if p = "a/" then
      [{ common_prefixes := ["a/c/"],
         contents := [{ key := "a/x.csv", size := some 3, last_modified := some "2024-01-01T00:00:00Z" }] }]
    else []

/-- Closed universe of prefixes of `pagA`. -/
def UA : Finset String := {"", "a/", "b/", "a/c/"}

theorem walk_prefixes_exactly_reachable_witness :
    (∀ p, p ∈ walk_prefixes pagA "" 64 ↔ Reaches pagA "" p)
    ∧ (walk_prefixes pagA "" 64).Nodup :=
  walk_prefixes_exactly_reachable pagA "" UA 64 (by decide) (by decide) (by decide)

theorem walk_prefixes_terminates_witness :
    ∃ N : ℕ, ∀ fuel : ℕ, N ≤ fuel → walk_prefixes pagA "" fuel = walk_prefixes pagA "" N :=
  walk_prefixes_terminates pagA "" UA (by decide) (by decide) (by decide)

/-! ## Formatting helpers -/

/-- Python `f'\x7bx:.1f\x7d'` on the exact nonnegative rational
`num / den` (`den > 0`): one decimal digit, rounding half to even,
which is what float formatting does on the exact value it holds. The
`3.1f` width-3 variant used inside the unit loop never pads, because a
one-decimal rendering always has at least three characters, so both
format strings are this same function. -/
def fmtOneDec (num den : ℕ) : String :=
  let q := (10 * num) / den
  let r := (10 * num) % den
  let k := if 2 * r < den then q
           else if den < 2 * r then q + 1
           else if q % 2 = 0 then q else q + 1
  toString (k / 10) ++ "." ++ toString (k % 10)

/-- Unit loop of `human_size`: the running float `n / 1024^k` of the
Python loop is carried exactly as the pair `(n, den)` with
`den = 1024^k`; the guard `n / 1024^k < 1024` is `n < 1024 * den`. -/
def human_size_go (n : ℕ) (den : ℕ) : List String → String
  | [] => fmtOneDec n den ++ " PB"
  | u :: us =>
      if n < 1024 * den then fmtOneDec n den ++ " " ++ u
      else human_size_go n (den * 1024) us

/-- Code of `human_size` (src/generate_indexes.py, lines 54-60). -/
def human_size : Option ℕ → String
  | none => ""
  | some n => human_size_go n 1 ["B", "KB", "MB", "GB", "TB"]

/-- Code of `iso_utc` (src/generate_indexes.py, line 62); timestamps
are modelled as their pre-rendered ISO-8601 UTC strings, so only the
falsy-`dt` fallback remains to model. -/
def iso_utc : Option String → String
  | none => ""
  | some s => s

/-- Code of `crumbs` (src/generate_indexes.py, lines 63-68): the
accumulator loop over the path parts. -/
def crumbsAux : List String → List String → List (String × String)
  | _, [] => []
  | acc, p :: ps =>
      (p, "/" ++ joinSep "/" (acc ++ [p]) ++ "/") :: crumbsAux (acc ++ [p]) ps

/-- Breadcrumb pairs `(name, href)` for a prefix, starting at
`('Home', '/')`. -/
def crumbs (pref : String) : List (String × String) :=
  let parts := (pySplit '/' (stripSlashes pref)).filter fun p => !(p == "")
  ("Home", "/") :: crumbsAux [] parts

/-- Code of `base_folder` (src/generate_indexes.py, lines 69-71). -/
def base_folder (pref : String) : String :=
  let s := stripSlashes pref
  if s ≠ "" then ((pySplit '/' s).getLastD "") else "Home"

/-- C5: breadcrumbs of `"a/b/c/"` are Home, a, b, c with cumulative
hrefs `/`, `/a/`, `/a/b/`, `/a/b/c/`, and the empty prefix yields the
single Home crumb. -/
theorem crumbs_examples :
    crumbs "a/b/c/" = [("Home", "/"), ("a", "/a/"), ("b", "/a/b/"), ("c", "/a/b/c/")]
    ∧ crumbs "" = [("Home", "/")] := by
  constructor
  · decide
  · decide

/-- C6: `human_size` renders 0 bytes as `"0.0 B"`, 1536 bytes as
`"1.5 KB"`, and every byte count of at least `1024^5` with the `"PB"`
suffix. -/
theorem human_size_examples :
    human_size (some 0) = "0.0 B"
    ∧ human_size (some 1536) = "1.5 KB"
    ∧ ∀ n : ℕ, 1024 ^ 5 ≤ n → ∃ s : String, human_size (some n) = s ++ "PB" := by
  refine ⟨by decide, by decide, ?_⟩
  intro n hn
  have hn' : 1125899906842624 ≤ n := by
    have h5 : (1024 : ℕ) ^ 5 = 1125899906842624 := by norm_num
    omega
  have key : human_size (some n) = fmtOneDec n (1 * 1024 * 1024 * 1024 * 1024 * 1024) ++ " PB" := by
    simp only [human_size, human_size_go]
    rw [if_neg (by omega), if_neg (by omega), if_neg (by omega), if_neg (by omega),
        if_neg (by omega)]
  rw [key, show (" PB" : String) = " " ++ "PB" by decide, ← String.append_assoc]
  exact ⟨_, rfl⟩

theorem human_size_examples_witness :
    ∃ s : String, human_size (some (1024 ^ 5)) = s ++ "PB" :=
  human_size_examples.2.2 (1024 ^ 5) (le_refl _)

/-! ## C4: `list_folder` -/

/-- C4: over all pages of a listing, `list_folder` drops exactly the
keys ending in the separator `"/"` or in `"index.html"`, keeps every
other key with its size and last-modified fields, and returns both the
subfolder list and the file list sorted by key. -/
theorem list_folder_filters_and_sorts (pages : List Page) :
    (∀ f ∈ (list_folder pages).2,
        pyEndswith f.key "/" = false ∧ pyEndswith f.key "index.html" = false)
    ∧ (∀ page ∈ pages, ∀ o ∈ page.contents,
        pyEndswith o.key "/" = false → pyEndswith o.key "index.html" = false →
        ({ key := o.key, size := o.size, last_modified := o.last_modified } : FileEntry)
          ∈ (list_folder pages).2)
    ∧ List.Sorted pyLe (list_folder pages).1
    ∧ List.Sorted keyLe (list_folder pages).2 := by
  have hperm : ((list_folder pages).2).Perm
      (pages.flatMap fun page =>
        (page.contents.filter fun o =>
          !(pyEndswith o.key "/") && !(pyEndswith o.key "index.html")).map
          fun o => { key := o.key, size := o.size, last_modified := o.last_modified }) :=
    List.perm_insertionSort keyLe _
  refine ⟨?_, ?_, ?_, ?_⟩
  · intro f hf
    have hf' := hperm.mem_iff.mp hf
    obtain ⟨page, hpage, hf''⟩ := List.mem_flatMap.mp hf'
    obtain ⟨o, ho, hfo⟩ := List.mem_map.mp hf''
    obtain ⟨_, hcond⟩ := List.mem_filter.mp ho
    rw [Bool.and_eq_true, Bool.not_eq_true', Bool.not_eq_true'] at hcond
    rw [← hfo]
    exact hcond
  · intro page hpage o ho h1 h2
    refine hperm.mem_iff.mpr (List.mem_flatMap.mpr ⟨page, hpage, List.mem_map.mpr ⟨o, ?_, rfl⟩⟩)
    exact List.mem_filter.mpr ⟨ho, by rw [Bool.and_eq_true, Bool.not_eq_true', Bool.not_eq_true']; exact ⟨h1, h2⟩⟩
  · exact List.sorted_insertionSort pyLe _
  · exact List.sorted_insertionSort keyLe _

/-- Concrete one-page listing used to witness the `list_folder` claim:
one ordinary object, one directory-marker key, one generated index. -/
def pageW : Page :=
  { common_prefixes := ["b/", "a/"],
    contents := [
      { key := "k.txt", size := some 5, last_modified := some "2024-01-01T00:00:00Z" },
      { key := "dir/", size := none, last_modified := none },
      { key := "sub/index.html", size := some 1, last_modified := none }] }

theorem list_folder_filters_and_sorts_witness :
    (pyEndswith "k.txt" "/" = false ∧ pyEndswith "k.txt" "index.html" = false)
    ∧ ({ key := "k.txt", size := some 5, last_modified := some "2024-01-01T00:00:00Z" } : FileEntry)
        ∈ (list_folder [pageW]).2 :=
  ⟨(list_folder_filters_and_sorts [pageW]).1
      { key := "k.txt", size := some 5, last_modified := some "2024-01-01T00:00:00Z" } (by decide),
   (list_folder_filters_and_sorts [pageW]).2.1 pageW (by decide)
      { key := "k.txt", size := some 5, last_modified := some "2024-01-01T00:00:00Z" }
      (by decide) (by decide) (by decide)⟩

/-! ## Search index -/

/-- One record of the global search index. Folder dicts carry
`type/name/path/url`; file dicts additionally carry
`size/last_modified/ext` (all already rendered as strings). -/
inductive SearchRec
  | folder (name path url : String)
  | file (name path url size last_modified ext : String)
deriving DecidableEq

/-- Python `key.split('/')[-1]` (the split list is never empty). -/
def searchName (key : String) : String := (pySplit '/' key).getLastD ""

/-- Extension tag of a file record:
`name.lower().rsplit('.',1)[1].upper() if '.' in name else ''`. -/
def file_ext (name : String) : String :=
  if name.toList.contains '.' then pyUpper (afterLastDot (pyLower name)) else ""

/-- Folder record appended for a visited prefix (src/generate_indexes.py,
lines 243-244); `b` is the already-rstripped base URL. -/
def folderRec (b pref : String) : SearchRec :=
  SearchRec.folder (if pref ≠ "" then base_folder pref else "Home")
    ("/" ++ pref)
    (if b ≠ "" then b ++ ("/" ++ pref) else "/" ++ pref)

/-- File record appended for a listed file (src/generate_indexes.py,
lines 252-258). -/
def fileRec (b : String) (f : FileEntry) : SearchRec :=
  SearchRec.file (searchName f.key)
    ("/" ++ f.key)
    (if b ≠ "" then b ++ ("/" ++ f.key) else "/" ++ f.key)
    (human_size f.size) (iso_utc f.last_modified) (file_ext (searchName f.key))

/-- Inner loop of `build_search_index` over the files of one prefix,
skipping keys inside the excluded `twdblogo` folder. -/
def fileRecs (b : String) : List FileEntry → List SearchRec
  | [] => []
  | f :: fs =>
      if pyStartswith f.key "twdblogo/" then fileRecs b fs
      else fileRec b f :: fileRecs b fs

/-- Outer loop of `build_search_index` over the walked prefixes,
skipping a prefix whose base folder is the excluded `twdblogo`. -/
def searchRecs (pag : String → List Page) (b : String) : List String → List SearchRec
  | [] => []
  | pref :: rest =>
      if base_folder pref = "twdblogo" then searchRecs pag b rest
      else (folderRec b pref :: fileRecs b (list_folder (pag pref)).2) ++ searchRecs pag b rest

/-- Code of `build_search_index` (src/generate_indexes.py, lines
236-259). -/
def build_search_index (pag : String → List Page) (startPref base_url : String) (fuel : ℕ) : List SearchRec :=
  searchRecs pag (rstripSlashes base_url) (walk_prefixes pag startPref fuel)

theorem fileRecs_length (b : String) (files : List FileEntry) :
    (fileRecs b files).length
      = (files.filter fun f => !(pyStartswith f.key "twdblogo/")).length := by
  induction files with
  | nil => rfl
  | cons f fs ih =>
      by_cases h : pyStartswith f.key "twdblogo/" = true
      · simp [fileRecs, h, ih]
      · have h' : pyStartswith f.key "twdblogo/" = false := by
          cases hv : pyStartswith f.key "twdblogo/"
          · rfl
          · exact absurd hv h
        simp [fileRecs, h', ih]

theorem searchRecs_length (pag : String → List Page) (b : String) (l : List String) :
    (searchRecs pag b l).length
      = (l.filter fun p => !(base_folder p == "twdblogo")).length
        + ((l.filter fun p => !(base_folder p == "twdblogo")).map
            fun p => ((list_folder (pag p)).2.filter fun f => !(pyStartswith f.key "twdblogo/")).length).sum := by
  induction l with
  | nil => rfl
  | cons pref rest ih =>
      by_cases h : base_folder pref = "twdblogo"
      · simp [searchRecs, h, ih]
      · simp [searchRecs, h, ih, fileRecs_length]
        omega

/-- C2 (amended): the search index holds one folder record per reachable
prefix whose base folder is not the excluded `"twdblogo"`, plus one file
record per listed file of those prefixes whose key does not start with
`"twdblogo/"`. -/
theorem build_search_index_count_amended (pag : String → List Page)
    (startPref base_url : String) (fuel : ℕ) :
    (build_search_index pag startPref base_url fuel).length
      = ((walk_prefixes pag startPref fuel).filter fun p => !(base_folder p == "twdblogo")).length
        + (((walk_prefixes pag startPref fuel).filter fun p => !(base_folder p == "twdblogo")).map
            fun p => ((list_folder (pag p)).2.filter fun f => !(pyStartswith f.key "twdblogo/")).length).sum :=
  searchRecs_length pag (rstripSlashes base_url) (walk_prefixes pag startPref fuel)

/-- Concrete bucket whose root has the single subfolder `twdblogo/`. -/
def pagX : String → List Page :=
  fun p => if p = "" then [{ common_prefixes := ["twdblogo/"], contents := [] }] else []

/-- C2 (counterexample): on `pagX` two prefixes are reachable and there
are no files at all, yet the index holds a single record, because the
current script skips the folder record of the reachable `twdblogo/`
prefix; so the claimed count (reachable prefixes + file entries) fails. -/
theorem build_search_index_count_cex :
    ¬ ((build_search_index pagX "" "" 8).length
        = (walk_prefixes pagX "" 8).length
          + ((walk_prefixes pagX "" 8).map fun p => (list_folder (pagX p)).2.length).sum) := by
  decide

/-! ## C3: exclusion of the logo folder -/

theorem toList_slash_append (s : String) : ("/" ++ s).toList = '/' :: s.toList := by
  show ("/" ++ s).data = '/' :: s.data
  rw [String.data_append]
  rfl

theorem stripSlashes_slash (s : String) : stripSlashes ("/" ++ s) = stripSlashes s := by
  unfold stripSlashes
  rw [toList_slash_append, List.dropWhile_cons]
  simp

theorem base_folder_slash (p : String) : base_folder ("/" ++ p) = base_folder p := by
  unfold base_folder
  rw [stripSlashes_slash]

theorem pyStartswith_slash (s t : String) :
    pyStartswith ("/" ++ s) ("/" ++ t) = pyStartswith s t := by
  unfold pyStartswith
  rw [toList_slash_append, toList_slash_append]
  simp [List.isPrefixOf]

/-- Subfolder list actually rendered by `render_index_html`
(src/generate_indexes.py, line 104): the comprehension filtering out the
excluded `twdblogo` folder. -/
def filtered_subfolders (subfolders : List String) : List String :=
  subfolders.filter fun sf => !(base_folder sf == "twdblogo")

/-- Invariant each search record must satisfy: no folder record for a
`twdblogo` folder, no file record whose key (recorded as the path
`"/" ++ key`) lies inside `twdblogo/`. -/
def rec_ok : SearchRec → Prop
  | SearchRec.folder _ path _ => ¬ (base_folder path = "twdblogo")
  | SearchRec.file _ path _ _ _ _ => pyStartswith path "/twdblogo/" = false

theorem fileRecs_ok (b : String) (files : List FileEntry) :
    ∀ r ∈ fileRecs b files, rec_ok r := by
  induction files with
  | nil => intro r hr; simp [fileRecs] at hr
  | cons f fs ih =>
      intro r hr
      by_cases h : pyStartswith f.key "twdblogo/" = true
      · rw [fileRecs, if_pos h] at hr
        exact ih r hr
      · have h' : pyStartswith f.key "twdblogo/" = false := by
          cases hv : pyStartswith f.key "twdblogo/"
          · rfl
          · exact absurd hv h
        rw [fileRecs, if_neg h] at hr
        rcases List.mem_cons.mp hr with hr | hr
        · subst hr
          show pyStartswith ("/" ++ f.key) "/twdblogo/" = false
          rw [show ("/twdblogo/" : String) = "/" ++ "twdblogo/" by decide,
              pyStartswith_slash]
          exact h'
        · exact ih r hr

theorem searchRecs_ok (pag : String → List Page) (b : String) (l : List String) :
    ∀ r ∈ searchRecs pag b l, rec_ok r := by
  induction l with
  | nil => intro r hr; simp [searchRecs] at hr
  | cons pref rest ih =>
      intro r hr
      by_cases h : base_folder pref = "twdblogo"
      · rw [searchRecs, if_pos h] at hr
        exact ih r hr
      · rw [searchRecs, if_neg h] at hr
        rcases List.mem_append.mp hr with hr | hr
        · rcases List.mem_cons.mp hr with hr | hr
          · subst hr
            show ¬ (base_folder ("/" ++ pref) = "twdblogo")
            rw [base_folder_slash]
            exact h
          · exact fileRecs_ok b _ r hr
        · exact ih r hr

/-- C3: the current script keeps the logo folder out of everything: every
record of the search index satisfies `rec_ok` (no `twdblogo` folder
record, no file record under `twdblogo/`), and the subfolder rows of any
rendered page never include a subfolder whose base folder is
`twdblogo`. -/
theorem twdblogo_never_listed :
    (∀ (pag : String → List Page) (startPref base_url : String) (fuel : ℕ),
      ∀ r ∈ build_search_index pag startPref base_url fuel, rec_ok r)
    ∧ (∀ subfolders : List String, ∀ sf ∈ filtered_subfolders subfolders,
        ¬ (base_folder sf = "twdblogo")) := by
  constructor
  · intro pag startPref base_url fuel r hr
    exact searchRecs_ok pag (rstripSlashes base_url) (walk_prefixes pag startPref fuel) r hr
  · intro subfolders sf hsf
    have := (List.mem_filter.mp hsf).2
    simpa using this

theorem twdblogo_never_listed_witness :
    rec_ok (SearchRec.folder "Home" "/" "/") ∧ ¬ (base_folder "x/" = "twdblogo") :=
  ⟨twdblogo_never_listed.1 pagA "" "" 64 (SearchRec.folder "Home" "/" "/") (by decide),
   twdblogo_never_listed.2 ["x/", "twdblogo/"] "x/" (by decide)⟩

/-! ## C8: region discovery -/

/-- Exception classes of the storage client: `ClientError` (the only
class caught by the script) versus anything else. -/
inductive PyErr
  | clientError
  | otherError
deriving DecidableEq

/-- Result of `head_bucket`: the optional `x-amz-bucket-region` response
header. -/
structure HeadResp where
  region : Option String
deriving DecidableEq

/-- Result of `get_bucket_location`: the optional `LocationConstraint`
(null for us-east-1). -/
structure LocResp where
  location_constraint : Option String
deriving DecidableEq

/-- Python `x or default` on an optional string: `None` and the empty
string are falsy. -/
def pyOrDefault (o : Option String) (d : String) : String :=
  match o with
  | none => d
  | some s => if s = "" then d else s

/-- Code of `discover_bucket_region` (src/generate_indexes.py, lines
15-25): the two lookups are passed as `Except` values; `except
ClientError` catches only `PyErr.clientError`, every other error
propagates. -/
def discover_bucket_region (head : Except PyErr HeadResp) (loc : Except PyErr LocResp) :
    Except PyErr String :=
  match head with
  | Except.ok r => Except.ok (pyOrDefault r.region "us-east-1")
  | Except.error PyErr.clientError =>
      match loc with
      | Except.ok r => Except.ok (pyOrDefault r.location_constraint "us-east-1")
      | Except.error PyErr.clientError => Except.ok "us-east-1"
      | Except.error PyErr.otherError => Except.error PyErr.otherError
  | Except.error PyErr.otherError => Except.error PyErr.otherError

/-- C8: region discovery returns the default `us-east-1` whenever both
lookups fail with a client error, and when a lookup succeeds but
reports no region (a missing or empty header, a null location
constraint); any non-client error propagates uncaught. The rest of the
script (`list_folder`, `put_obj`, `main`) contains no exception
handler, so in this embedding those operations are total over the given
listing and every provider error propagates by construction. -/
theorem discover_bucket_region_fallback :
    discover_bucket_region (Except.error PyErr.clientError) (Except.error PyErr.clientError)
        = Except.ok "us-east-1"
    ∧ (∀ loc, discover_bucket_region (Except.ok { region := none }) loc = Except.ok "us-east-1")
    ∧ (∀ loc, discover_bucket_region (Except.ok { region := some "" }) loc = Except.ok "us-east-1")
    ∧ discover_bucket_region (Except.error PyErr.clientError) (Except.ok { location_constraint := none })
        = Except.ok "us-east-1"
    ∧ (∀ loc, discover_bucket_region (Except.error PyErr.otherError) loc
        = Except.error PyErr.otherError)
    ∧ discover_bucket_region (Except.error PyErr.clientError) (Except.error PyErr.otherError)
        = Except.error PyErr.otherError := by
  exact ⟨rfl, fun loc => rfl, fun loc => rfl, rfl, fun loc => rfl, rfl⟩


/-! ## HTML rendering -/

/-- Bootstrap CSS tag constant of the script. -/
def BOOTSTRAP_CSS : String := "<link rel=\"stylesheet\" href=\"https://cdn.jsdelivr.net/npm/bootstrap@5.3.2/dist/css/bootstrap.min.css\">"

/-- Bootstrap JS tag constant of the script. -/
def BOOTSTRAP_JS : String := "<script src=\"https://cdn.jsdelivr.net/npm/bootstrap@5.3.2/dist/js/bootstrap.bundle.min.js\"></script>"

/-- Folder SVG icon constant of the script. -/
def FOLDER_ICON : String := "<svg xmlns=\"http://www.w3.org/2000/svg\" width=\"18\" height=\"18\" class=\"me-2\" fill=\"currentColor\" viewBox=\"0 0 16 16\" aria-hidden=\"true\"><path d=\"M9.828 4a3 3 0 0 1 2.121.879l.172.172H14a2 2 0 0 1 2 2v4.5A2.5 2.5 0 0 1 13.5 14h-11A2.5 2.5 0 0 1 0 11.5V6a2 2 0 0 1 2-2h4.586l.707.707A3 3 0 0 0 9.828 4z\"/></svg>"

/-- File SVG icon constant of the script. -/
def FILE_ICON : String := "<svg xmlns=\"http://www.w3.org/2000/svg\" width=\"18\" height=\"18\" class=\"me-2\" fill=\"currentColor\" viewBox=\"0 0 16 16\" aria-hidden=\"true\"><path d=\"M4 0a2 2 0 0 0-2 2v12c0 1.1.9 2 2 2h8a2 2 0 0 0 2-2V5.5L9.5 0H4z\"/></svg>"

/-- Badge color table `BADGE_MAP` (src/generate_indexes.py, lines
73-77), as an association list. -/
def BADGE_MAP : List (String × String) :=
  [("zip", "primary"), ("tif", "info"), ("tiff", "info"), ("geotiff", "info"),
   ("csv", "success"), ("pdf", "danger"), ("json", "dark"), ("geojson", "dark"),
   ("xml", "secondary"), ("gdb", "warning"), ("fgdb", "warning"), ("shp", "warning"),
   ("dbf", "warning"), ("prj", "warning"), ("shx", "warning"), ("jpg", "info"),
   ("jpeg", "info"), ("png", "info")]

/-- Special-case label table of `ext_label`. -/
def LABEL_MAP : List (String × String) :=
  [("tif", "TIF"), ("tiff", "TIFF"), ("geotiff", "GeoTIFF"), ("geojson", "GEOJSON")]

/-- Code of `ext_label` (src/generate_indexes.py, lines 78-83). -/
def ext_label (name : String) : String :=
  let n := pyLower name
  let ext := if n.toList.contains '.' then afterLastDot n else ""
  let lbl := match LABEL_MAP.lookup ext with
             | some l => l
             | none => if ext ≠ "" then pyUpper ext else "FILE"
  let color := (BADGE_MAP.lookup ext).getD "secondary"
  "<span class=\"badge bg-" ++ color ++ " ms-2\">" ++ htmlEscape lbl ++ "</span>"

/-- Link builder `fL` of `render_index_html` (line 123):
`b + '/' + quote(s, safe='/')`. -/
def fL (b s : String) : String := b ++ "/" ++ pyQuote s

/-- One subfolder row of `render_index_html` (lines 125-131). -/
def folder_item (b sf : String) : String :=
  "<li class=\"list-group-item d-flex justify-content-between\">"
  ++ "<div class=\"d-flex align-items-center\">" ++ FOLDER_ICON
  ++ "<a href=\"" ++ htmlEscape (fL b sf) ++ "\">" ++ htmlEscape (base_folder sf) ++ "/</a></div>"
  ++ "<button class=\"btn btn-sm btn-outline-secondary copy\" data-u=\"" ++ htmlEscape (fL b sf) ++ "\">Copy</button>"
  ++ "</li>"

/-- Subfolder list markup `folders` of `render_index_html` (lines
125-132): joined rows over the filtered subfolders, with the
`(no subfolders)` placeholder when the joined string is empty (Python's
`or` on a falsy string). -/
def folders_html (b : String) (subfolders : List String) : String :=
  let j := concatAll ((filtered_subfolders subfolders).map (folder_item b))
  if j = "" then "<li class=\"list-group-item text-muted\">(no subfolders)</li>" else j

/-- Part of a file row of `render_index_html` (lines 134-142) before
its extension badge: opening markup, file icon and anchor. -/
def file_item_pre (b : String) (f : FileEntry) : String :=
  "<li class=\"list-group-item d-flex justify-content-between\">"
  ++ "<div class=\"d-flex align-items-center\">" ++ FILE_ICON
  ++ "<a href=\"" ++ htmlEscape (fL b f.key) ++ "\">" ++ htmlEscape (searchName f.key) ++ "</a>"

/-- Part of a file row of `render_index_html` (lines 134-142) after its
extension badge: size, timestamp and the copy button. -/
def file_item_post (b : String) (f : FileEntry) : String :=
  "<small class=\"text-muted ms-2\">" ++ htmlEscape (human_size f.size) ++ " \u2022 " ++ htmlEscape (iso_utc f.last_modified) ++ "</small></div>"
  ++ "<button class=\"btn btn-sm btn-outline-secondary copy\" data-u=\"" ++ htmlEscape (fL b f.key) ++ "\">Copy</button>"
  ++ "</li>"

/-- One file row of `render_index_html` (lines 134-142): the inline
lambda applied to `(fL(f['key']), f['key'].split('/')[-1], size, lm)`,
split around the badge into `file_item_pre ++ ext_label ++
file_item_post` in source order. -/
def file_item (b : String) (f : FileEntry) : String :=
  file_item_pre b f ++ ext_label (searchName f.key) ++ file_item_post b f

/-- File list markup `filesh` of `render_index_html` (lines 134-144)
with the `(no files)` placeholder. -/
def files_html (b : String) (files : List FileEntry) : String :=
  let j := concatAll (files.map (file_item b))
  if j = "" then "<li class=\"list-group-item text-muted\">(no files)</li>" else j

/-- Breadcrumb markup of `render_index_html` (lines 106-120): every
crumb but the last is a link, the last is the active item. -/
def bc_render : List (String × String) → String
  | [] => ""
  | [nh] => "<li class=\"breadcrumb-item active\" aria-current=\"page\">" ++ htmlEscape nh.1 ++ "</li>"
  | nh :: rest =>
      "<li class=\"breadcrumb-item\"><a href=\"" ++ htmlEscape nh.2 ++ "\">" ++ htmlEscape nh.1 ++ "</a></li>"
      ++ bc_render rest

/-- Document of `render_index_html` up to (and including) the opening
of the file list `<ul id="f2" ...>` (src/generate_indexes.py, lines
151-180): metadata, navbar, breadcrumbs and the subfolder list. `b` and
`p` are the already-normalised base URL and prefix. -/
def renderTop (b p : String) (subfolders : List String) : String :=
  "<!doctype html><html lang=\"en\"><head><meta charset=\"utf-8\"><title>"
  ++ htmlEscape "Texas Water Development Board | Flood DataScience"
  ++ "</title><meta property=\"og:title\" content=\"Texas Water Development Board\"><meta property=\"og:type\" content=\"website\"><meta property=\"og:url\" content=\""
  ++ htmlEscape (b ++ (if p ≠ "" then "/" ++ p else "/"))
  ++ "\"><meta property=\"og:description\" content=\"The mission of the Texas Water Development Board (TWDB) is to lead the state\x27s efforts in ensuring a secure water future for Texas and its citizens.\"><meta property=\"og:image\" content=\""
  ++ htmlEscape (b ++ "/twdblogo/twdblogo.png")
  ++ "\"><meta property=\"og:image:alt\" content=\"Logo of the Texas Water Development Board\"><meta property=\"og:image:width\" content=\"160\"><meta property=\"og:image:height\" content=\"55\"><meta name=\"viewport\" content=\"width=device-width,initial-scale=1\">"
  ++ BOOTSTRAP_CSS
  ++ "<style>body\x7bpadding:2rem ;background-color:#f5f7fa;\x7d.search-input\x7bmax-width:640px\x7d</style></head><body class=\"container\"><nav class=\"navbar mb-3\"><div class=\"container-fluid px-0\"><img src=\""
  ++ htmlEscape (b ++ "/twdblogo/twdblogo.png")
  ++ "\" alt=\"TWDB Logo\" style=\"height:130px;margin-right:40px;background-color:#f5f7fa;filter:brightness(96%);\"><span class=\"navbar-brand\">"
  ++ htmlEscape "Texas Water Development Board | Flood DataScience"
  ++ "</span><div class=\"d-flex gap-2\"><a class=\"btn btn-sm btn-outline-primary\" href=\""
  ++ (b ++ "/search/")
  ++ "\">Search</a><a class=\"btn btn-sm btn-outline-secondary\" href=\""
  ++ (if b ≠ "" then b else "/")
  ++ "\">Home</a></div></div></nav><nav aria-label=\"breadcrumb\"><ol class=\"breadcrumb\">"
  ++ bc_render ((crumbs p).map fun nh => (nh.1, if b ≠ "" then b ++ nh.2 else nh.2))
  ++ "</ol></nav><input id=\"s\" type=\"search\" class=\"form-control mb-3 search-input\" placeholder=\"Search folders/files\"><h6>Subfolders</h6><ul id=\"f1\" class=\"list-group\">"
  ++ folders_html b subfolders
  ++ "</ul><h6 class=\"mt-4\">Files</h6><ul id=\"f2\" class=\"list-group\">"

/-- Document of `render_index_html` from the closing of the file list
to the end (src/generate_indexes.py, lines 181-206): the search-results
section and the inline page script with its interpolated JSON
constants. -/
def renderBot (_b p : String) : String :=
  "</ul><section id=\"r\" style=\"display:none\"><h6>Search results</h6><ul id=\"rs\" class=\"list-group\"></ul><p id=\"em\" class=\"text-muted mt-3\" style=\"display:none\">(no matches)</p></section>"
  ++ BOOTSTRAP_JS
  ++ "<script>const P="
  ++ pyJsonDumps p
  ++ ",IF="
  ++ pyJsonDumps FOLDER_ICON
  ++ ",IA="
  ++ pyJsonDumps FILE_ICON
  ++ ";let D=null;const I=document.getElementById(\"s\"),S1=document.getElementById(\"f1\"),S2=document.getElementById(\"f2\"),R=document.getElementById(\"r\"),UL=document.getElementById(\"rs\"),E=document.getElementById(\"em\");function n(s)\x7breturn (s||\"\").toLowerCase()\x7dasync function ld()\x7bif(D)return;try\x7bD=await (await fetch(\"/search-index.json\")).json()\x7dcatch(e)\x7bD=null\x7d\x7dfunction m(r,q)\x7blet a=n(r.name),b=n(r.path);return a.includes(q)||b.includes(q)\x7dfunction rk(r,q)\x7blet a=n(r.name),b=n(r.path);return (a.startsWith(q)?2:0)+(b.startsWith(q)?1:0)\x7dfunction row(r)\x7bvar ic=r.type===\"folder\"?IF:IA,h=(r.url||r.path),nm=(r.name||r.path);return \"<li class=\\\"list-group-item d-flex justify-content-between\\\"><div class=\\\"d-flex align-items-center\\\">\"+ic+\"<a href=\\\"\"+h+\"\\\">\"+nm+\"</a></div><button class=\\\"btn btn-sm btn-outline-secondary copy\\\" data-u=\\\"\"+h+\"\\\">Copy</button></li>\"\x7dfunction rend(L)\x7bUL.innerHTML=L.map(row).join(\"\");E.style.display=L.length?\"none\":\"\"\x7dasync function s(q)\x7bq=n(q);if(!q)\x7bR.style.display=\"none\";S1.style.display=\"\";S2.style.display=\"\";return\x7dawait ld();if(!D)return;const pref=\"/\"+P+(P?\"/\":\"\");const L=D.filter(r=>((r.path||\"\").startsWith(pref))).filter(r=>m(r,q)).sort((a,b)=>rk(b,q)-rk(a,q));rend(L);R.style.display=\"\";S1.style.display=\"none\";S2.style.display=\"none\"\x7dI && (I.oninput=e=>s(e.target.value));document.addEventListener(\"click\",e=>\x7bconst b=e.target.closest(\".copy\");if(!b)return;const u=b.getAttribute(\"data-u\");navigator.clipboard.writeText(u).then(()=>\x7bconst o=b.textContent;b.textContent=\"Copied!\";b.classList.replace(\"btn-outline-secondary\",\"btn-success\");setTimeout(()=>\x7bb.textContent=o;b.classList.replace(\"btn-success\",\"btn-outline-secondary\")\x7d,900)\x7d)\x7d)</script></body></html>"

/-- Code of `render_index_html` (src/generate_indexes.py, lines
91-207): normalise the base URL and prefix, then emit the document —
`renderTop`, the rendered file rows `files_html`, and `renderBot`
concatenated in source order. -/
def render_index_html (base_url pref : String) (subfolders : List String) (files : List FileEntry) : String :=
  let b := rstripSlashes base_url
  let p := stripSlashes pref
  renderTop b p subfolders ++ files_html b files ++ renderBot b p

/-- Code of `render_search_page` (src/generate_indexes.py, lines
210-226). -/
def render_search_page : String :=
  "<!doctype html><html><head><meta charset=utf-8><title>FloodScience \u2022 Global Search</title>"
  ++ BOOTSTRAP_CSS
  ++ "</head><body class=container><nav class=\"navbar mb-3\"><span class=navbar-brand>Global Search</span><a class=\"btn btn-sm btn-outline-secondary\" href=\"/\">Home</a></nav><input id=\"q\" type=\"search\" class=\"form-control mb-3\" placeholder=\"Search all files\"><ul id=\"r\" class=\"list-group\"></ul><p id=\"e\" class=\"text-muted\" style=\"display:none\">(no results)</p>"
  ++ BOOTSTRAP_JS
  ++ "<script>let D=[];const R=document.getElementById(\"r\"),E=document.getElementById(\"e\"),Q=document.getElementById(\"q\");const IF="
  ++ pyJsonDumps FOLDER_ICON
  ++ ",IA="
  ++ pyJsonDumps FILE_ICON
  ++ ";function row(x)\x7bvar ic=x.type===\"folder\"?IF:IA,h=(x.url||x.path),n=(x.name||x.path);return \"<li class=\\\"list-group-item d-flex justify-content-between\\\"><div class=\\\"d-flex align-items-center\\\">\"+ic+\"<a href=\\\"\"+h+\"\\\">\"+n+\"</a></div><button class=\\\"btn btn-sm btn-outline-secondary copy\\\" data-u=\\\"\"+h+\"\\\">Copy</button></li>\"\x7dfunction render(L)\x7bR.innerHTML=L.map(row).join(\"\");E.style.display=L.length?\"none\":\"\"\x7dfetch(\"/search-index.json\").then(r=>r.json()).then(j=>\x7bD=j;render(D)\x7d).catch(()=>\x7bR.innerHTML=\"<li class=\\\"list-group-item text-danger\\\">Failed to load search index.</li>\"\x7d)Q&&Q.addEventListener(\"input\",e=>\x7bvar s=(e.target.value||\"\").toLowerCase();render(s?D.filter(r=>(((r.name||\"\")+(r.path||\"\")+(r.ext||\"\")).toLowerCase().includes(s))):D)\x7d)document.addEventListener(\"click\",e=>\x7bvar b=e.target.closest(\".copy\");if(!b)return;var u=b.getAttribute(\"data-u\");navigator.clipboard.writeText(u).then(()=>\x7bvar o=b.textContent;b.textContent=\"Copied!\";b.classList.replace(\"btn-outline-secondary\",\"btn-success\");setTimeout(()=>\x7bb.textContent=o;b.classList.replace(\"btn-success\",\"btn-outline-secondary\")\x7d,900)\x7d)\x7d)</script></body></html>"


/-! ## C7: file rows and badges -/

theorem str_append_empty (s : String) : s ++ "" = s := by
  cases s with
  | mk data =>
      show String.mk (data ++ []) = String.mk data
      rw [List.append_nil]

theorem file_item_length_pos (b : String) (f : FileEntry) : 0 < (file_item b f).length := by
  have h : 0 < ("<li class=\"list-group-item d-flex justify-content-between\">" : String).length := by
    decide
  simp only [file_item, file_item_pre, String.length_append]
  omega

theorem files_html_two (b : String) (f g : FileEntry) :
    files_html b [f, g] = file_item b f ++ file_item b g := by
  have hne : file_item b f ++ (file_item b g ++ "") ≠ "" := by
    intro h
    have hl := congrArg String.length h
    rw [String.length_append, String.length_append] at hl
    have h0 : ("" : String).length = 0 := rfl
    rw [h0] at hl
    have hp := file_item_length_pos b f
    omega
  show (if file_item b f ++ (file_item b g ++ "") = ""
        then "<li class=\"list-group-item text-muted\">(no files)</li>"
        else file_item b f ++ (file_item b g ++ "")) = file_item b f ++ file_item b g
  rw [if_neg hne, str_append_empty]

/-- C7: for a folder holding exactly the files `a.csv` and `b.tif` (any
sizes, timestamps, subfolders and base URL), the rendered file list is
exactly the two file rows, the `a.csv` row carries the green `CSV`
badge, the `b.tif` row carries the blue `TIF` badge, and the full
document of `render_index_html` embeds that file list verbatim. -/
theorem render_two_files_badges (base_url pref : String) (subfolders : List String)
    (sz1 sz2 : Option ℕ) (lm1 lm2 : Option String) :
    files_html (rstripSlashes base_url) [⟨"a.csv", sz1, lm1⟩, ⟨"b.tif", sz2, lm2⟩]
        = file_item (rstripSlashes base_url) ⟨"a.csv", sz1, lm1⟩
          ++ file_item (rstripSlashes base_url) ⟨"b.tif", sz2, lm2⟩
    ∧ (∃ s t, file_item (rstripSlashes base_url) ⟨"a.csv", sz1, lm1⟩
        = s ++ "<span class=\"badge bg-success ms-2\">CSV</span>" ++ t)
    ∧ (∃ s t, file_item (rstripSlashes base_url) ⟨"b.tif", sz2, lm2⟩
        = s ++ "<span class=\"badge bg-info ms-2\">TIF</span>" ++ t)
    ∧ (∃ pre post,
        render_index_html base_url pref subfolders [⟨"a.csv", sz1, lm1⟩, ⟨"b.tif", sz2, lm2⟩]
          = pre ++ files_html (rstripSlashes base_url) [⟨"a.csv", sz1, lm1⟩, ⟨"b.tif", sz2, lm2⟩] ++ post) := by
  refine ⟨files_html_two _ _ _, ?_, ?_, ?_⟩
  · refine ⟨file_item_pre (rstripSlashes base_url) ⟨"a.csv", sz1, lm1⟩,
            file_item_post (rstripSlashes base_url) ⟨"a.csv", sz1, lm1⟩, ?_⟩
    have hsplit : file_item (rstripSlashes base_url) ⟨"a.csv", sz1, lm1⟩
        = file_item_pre (rstripSlashes base_url) ⟨"a.csv", sz1, lm1⟩
          ++ ext_label (searchName "a.csv")
          ++ file_item_post (rstripSlashes base_url) ⟨"a.csv", sz1, lm1⟩ := rfl
    have hb : ext_label (searchName "a.csv") = "<span class=\"badge bg-success ms-2\">CSV</span>" := by
      decide
    rw [hsplit, hb]
  · refine ⟨file_item_pre (rstripSlashes base_url) ⟨"b.tif", sz2, lm2⟩,
            file_item_post (rstripSlashes base_url) ⟨"b.tif", sz2, lm2⟩, ?_⟩
    have hsplit : file_item (rstripSlashes base_url) ⟨"b.tif", sz2, lm2⟩
        = file_item_pre (rstripSlashes base_url) ⟨"b.tif", sz2, lm2⟩
          ++ ext_label (searchName "b.tif")
          ++ file_item_post (rstripSlashes base_url) ⟨"b.tif", sz2, lm2⟩ := rfl
    have hb : ext_label (searchName "b.tif") = "<span class=\"badge bg-info ms-2\">TIF</span>" := by
      decide
    rw [hsplit, hb]
  · exact ⟨renderTop (rstripSlashes base_url) (stripSlashes pref) subfolders,
           renderBot (rstripSlashes base_url) (stripSlashes pref), rfl⟩

/-! ## C9: uploads and cache headers -/

/-- JSON rendering of one search record: `json.dumps` of the dict with
`ensure_ascii=False` and compact separators, fields in insertion
order. -/
def searchRecJson : SearchRec → String
  | SearchRec.folder name path url =>
      "\x7b\"type\":\"folder\",\"name\":" ++ pyJsonDumpsRaw name
      ++ ",\"path\":" ++ pyJsonDumpsRaw path
      ++ ",\"url\":" ++ pyJsonDumpsRaw url ++ "\x7d"
  | SearchRec.file name path url size last_modified ext =>
      "\x7b\"type\":\"file\",\"name\":" ++ pyJsonDumpsRaw name
      ++ ",\"path\":" ++ pyJsonDumpsRaw path
      ++ ",\"url\":" ++ pyJsonDumpsRaw url
      ++ ",\"size\":" ++ pyJsonDumpsRaw size
      ++ ",\"last_modified\":" ++ pyJsonDumpsRaw last_modified
      ++ ",\"ext\":" ++ pyJsonDumpsRaw ext ++ "\x7d"

/-- Body of `search-index.json`:
`json.dumps(recs, ensure_ascii=False, separators=(',', ':'))`. -/
def searchIndexJson (recs : List SearchRec) : String :=
  "[" ++ joinSep "," (recs.map searchRecJson) ++ "]"

/-- One `put_object` call of the script, recorded with its key, body,
content type and cache-control header. -/
structure Upload where
  key : String
  body : String
  ctype : String
  cache : String
deriving DecidableEq

/-- Code of `put_obj` (src/generate_indexes.py, lines 232-234); the
Python default `cache='public, max-age=60'` is written out at the call
sites that omit the argument. -/
def put_obj (key body ctype cache : String) : Upload :=
  { key := key, body := body, ctype := ctype, cache := cache }

/-- Uploads performed by `main` (src/generate_indexes.py, lines
262-289) for given CLI flags: one `index.html` per processed prefix
(with the default cache header), then — when `--with-search` or
`--full` is set — the JSON index with its longer cache header and the
search page. -/
def main_uploads (pag : String → List Page) (base_url startPref : String)
    (full with_search : Bool) (fuel : ℕ) : List Upload :=
  let prefixes := if full then walk_prefixes pag startPref fuel else [startPref]
  let page_uploads := prefixes.map fun pref =>
    put_obj (pref ++ "index.html")
      (render_index_html base_url pref (list_folder (pag pref)).1 (list_folder (pag pref)).2)
      "text/html; charset=utf-8" "public, max-age=60"
  page_uploads ++
    (if with_search || full then
      [put_obj "search-index.json" (searchIndexJson (build_search_index pag startPref base_url fuel))
         "application/json; charset=utf-8" "public, max-age=300",
       put_obj "search/index.html" render_search_page "text/html; charset=utf-8" "public, max-age=60"]
     else [])

/-- C9: every upload of HTML content type carries
`Cache-Control: public, max-age=60`, every upload of JSON content type
carries `public, max-age=300`, and 60 < 300, so on every run the HTML
time-to-live is strictly shorter than the JSON index time-to-live. -/
theorem upload_cache_headers :
    (∀ (pag : String → List Page) (base_url startPref : String) (full with_search : Bool) (fuel : ℕ),
      ∀ u ∈ main_uploads pag base_url startPref full with_search fuel,
        (u.ctype = "text/html; charset=utf-8" → u.cache = "public, max-age=60")
        ∧ (u.ctype = "application/json; charset=utf-8" → u.cache = "public, max-age=300"))
    ∧ (60 : ℕ) < 300 := by
  constructor
  · intro pag base_url startPref full with_search fuel u hu
    simp only [main_uploads] at hu
    rcases List.mem_append.mp hu with h | h
    · obtain ⟨pref, _, hpu⟩ := List.mem_map.mp h
      subst hpu
      exact ⟨fun _ => rfl, fun hj =>
        absurd (show ("text/html; charset=utf-8" : String) = "application/json; charset=utf-8" from hj)
          (by decide)⟩
    · cases hb : (with_search || full) with
      | false => rw [hb] at h; simp at h
      | true =>
          rw [hb] at h
          simp only [if_true] at h
          rcases List.mem_cons.mp h with h1 | h1
          · subst h1
            exact ⟨fun hh =>
              absurd (show ("application/json; charset=utf-8" : String) = "text/html; charset=utf-8" from hh)
                (by decide), fun _ => rfl⟩
          · rcases List.mem_cons.mp h1 with h2 | h2
            · subst h2
              exact ⟨fun _ => rfl, fun hj =>
                absurd (show ("text/html; charset=utf-8" : String) = "application/json; charset=utf-8" from hj)
                  (by decide)⟩
            · simp at h2
  · decide

theorem upload_cache_headers_witness :
    ((put_obj "search/index.html" render_search_page "text/html; charset=utf-8" "public, max-age=60").ctype
        = "text/html; charset=utf-8"
      → (put_obj "search/index.html" render_search_page "text/html; charset=utf-8" "public, max-age=60").cache
        = "public, max-age=60")
    ∧ ((put_obj "search/index.html" render_search_page "text/html; charset=utf-8" "public, max-age=60").ctype
        = "application/json; charset=utf-8"
      → (put_obj "search/index.html" render_search_page "text/html; charset=utf-8" "public, max-age=60").cache
        = "public, max-age=300") :=
  upload_cache_headers.1 (fun _ => []) "" "" false true 8
    (put_obj "search/index.html" render_search_page "text/html; charset=utf-8" "public, max-age=60")
    (List.mem_append_right _ (List.mem_cons_of_mem _ (List.mem_cons_self _ _)))
